import Mathlib

/-!
The dingo task queue: report model, status table, bridge selection and the demo
marshaller.

A shallow embedding of `transport/report.go`, `bridge.go` and the demo
marshaller / invoker of `dingo_local_test.go`.

Conventions of the embedding:

* Go `int16` and `int` values are `Int`s; where arithmetic can overflow the
  result is wrapped explicitly (`wrapInt`).
* A Go pointer that may be nil (`*Error`, `*Option`) is an `Option`.
* A Go slice is `Option (List _)`: `none` is the nil slice, `some []` the empty
  non-nil slice.  `len` of both is `0`, but they are not deeply equal.
* `reflect.DeepEqual` is structural equality of the embedded values.
* An indexing or type assertion that would panic makes the function return
  `none`.
-/

namespace transport

/-- Modelled from the spec: `transport.Header`, whose declaration is not among the
sources.  The spec lists the task ID, the function name and the 16-bit marshaller ID;
`report.go` reads the fields `I` (ID) and `N` (name). -/
structure Header where
  I : String
  N : String
  MashID : Int
deriving DecidableEq, Repr

/-- Modelled from the spec: `transport.Error`, "structured error with integer code and
message"; its declaration is not among the sources. -/
structure Error where
  C : Int
  M : String
deriving DecidableEq, Repr

/-- Modelled from the spec: `transport.Option` (named `Opt` here), with the two recognised
switches `IgnoreReport` and `OnlyResult`; its declaration is not among the sources. -/
structure Opt where
  IR : Bool
  OR : Bool
deriving DecidableEq, Repr

/-- A Go slice: `none` is nil, `some xs` is a non-nil slice with elements `xs`. -/
abbrev Slice (α : Type) := Option (List α)

/-- Go `len` on a slice; the nil slice has length `0`. -/
def len {α : Type} : Slice α → Nat
  | none => 0
  | some xs => xs.length

/-- Go `reflect.DeepEqual`, taken as structural equality of the embedded values. -/
def DeepEqual {β : Type} [DecidableEq β] (a b : β) : Bool := decide (a = b)

/-- Go `type ReportPayload struct { S int16; E *Error; O *Option; R []interface{} }`;
`α` is the type of the dynamic values stored in `R`. -/
structure ReportPayload (α : Type) where
  S : Int
  E : Option Error
  O : Option Opt
  R : Slice α
deriving DecidableEq, Repr

/-- Go `type Report struct { H *Header; P *ReportPayload }`, header and payload non-nil. -/
structure Report (α : Type) where
  H : Header
  P : ReportPayload α
deriving DecidableEq, Repr

/-- The type of the `Status` table: eight `int16` fields, `Count` last. -/
structure StatusTable where
  None : Int
  Sent : Int
  Progress : Int
  Success : Int
  Fail : Int
  Panic : Int
  Shutdown : Int
  Count : Int
deriving DecidableEq, Repr

/-- Go `var Status = struct{...}{0, 1, 2, 3, 4, 5, 6, 7}`. -/
def Status : StatusTable := ⟨0, 1, 2, 3, 4, 5, 6, 7⟩

/-- The range of a Go `int16`. -/
def isInt16 (s : Int) : Prop := -32768 ≤ s ∧ s ≤ 32767

variable {α : Type}

/-- Go `func (r *Report) ID() string`. -/
def Report.ID (r : Report α) : String := r.H.I

/-- Go `func (r *Report) Name() string`. -/
def Report.Name (r : Report α) : String := r.H.N

/-- Go `func (r *Report) Status() int16`. -/
def Report.Status (r : Report α) : Int := r.P.S

/-- Go `func (r *Report) Return() []interface{}`. -/
def Report.Return (r : Report α) : Slice α := r.P.R

/-- Go `func (r *Report) SetReturn(ret []interface{})`. -/
def Report.SetReturn (r : Report α) (ret : Slice α) : Report α :=
  { r with P := { r.P with R := ret } }

/-- Go `func (r *Report) Done() bool`. -/
def Report.Done (r : Report α) : Bool :=
  r.P.S == transport.Status.Success || r.P.S == transport.Status.Fail ||
    r.P.S == transport.Status.Panic || r.P.S == transport.Status.Shutdown

/-- Go `func (r *Report) OK() bool`. -/
def Report.OK (r : Report α) : Bool := r.P.S == transport.Status.Success

/-- Go `func (r *Report) Fail() bool`. -/
def Report.Fail (r : Report α) : Bool := r.P.S == transport.Status.Fail

/-- Go `func (r *Report) Panic() bool`. -/
def Report.Panic (r : Report α) : Bool := r.P.S == transport.Status.Panic

/-- Go `func (r *Report) Shutdown() bool`. -/
def Report.Shutdown (r : Report α) : Bool := r.P.S == transport.Status.Shutdown

/-- Go `func (r *Report) Equal(other *Report) bool`: `reflect.DeepEqual(r, other)`. -/
def Report.Equal [DecidableEq α] (r other : Report α) : Bool := DeepEqual r other

/-- Go `func (r *Report) AlmostEqual(other *Report) (same bool)`. -/
def Report.AlmostEqual [DecidableEq α] (r other : Report α) : Bool :=
  let same := r.H.I == other.H.I &&
    r.H.N == other.H.N &&
    r.P.S == other.P.S &&
    DeepEqual r.P.O other.P.O &&
    DeepEqual r.P.E other.P.E
  if !same then
    same
  else if len r.P.R == 0 && len other.P.R == 0 then
    same
  else
    same && DeepEqual r.P.R other.P.R

/-! ## Tasks and dynamic values -/

/-- The dynamic values the demo function exchanges through `[]interface{}`:
a Go `int` or a Go `string`. -/
inductive GoValue
  | int (n : Int)
  | str (s : String)
deriving DecidableEq, Repr

/-- The range of a Go `int` (64-bit). -/
def isInt (n : Int) : Prop := -(2 ^ 63) ≤ n ∧ n < 2 ^ 63

/-- Two's-complement wrap-around of a Go `int` result. -/
def wrapInt (x : Int) : Int := (x + 2 ^ 63) % 2 ^ 64 - 2 ^ 63

/-- Indexing `s[i]` of a slice; `none` is the index-out-of-range panic. -/
def index {α : Type} (s : Slice α) (i : Nat) : Option α :=
  match s with
  | none => none
  | some xs => xs[i]?

/-- Modelled from the spec: `transport.TaskPayload`, the Option and Args of a task, with
the field names of the struct literal in `DecodeTask`; its declaration is not among the
sources. -/
structure TaskPayload (α : Type) where
  O : Option Opt
  A : Slice α
deriving DecidableEq, Repr

/-- Modelled from the spec: `transport.Task`, header and payload, with the field names of
the struct literal in `DecodeTask`; its declaration is not among the sources. -/
structure Task (α : Type) where
  H : Header
  P : TaskPayload α
deriving DecidableEq, Repr

/-- Modelled from the spec: `func (t *Task) Args() []interface{}`, the Args of the task;
its declaration is not among the sources. -/
def Task.Args (t : Task α) : Slice α := t.P.A

/-- The library calls the demo marshaller makes, over a byte-string type `β`:
`json.Marshal` / `json.Unmarshal` at the types it uses them at, and
`transport.ComposeBytes` / `transport.DecomposeBytes`.  The callers discard the
errors of `Marshal`, `Unmarshal` and `DecomposeBytes`, so `marshal*` is total,
`unmarshal*` is `none` when the target variable is left untouched, and
`DecomposeBytes` returns the header as it leaves it together with the chunks. -/
structure Wire (β : Type) where
  marshalValue : GoValue → β
  marshalInt16 : Int → β
  marshalError : Option Error → β
  marshalOption : Option Opt → β
  unmarshalInt : β → Option Int
  unmarshalString : β → Option String
  unmarshalInt16 : β → Option Int
  unmarshalError : β → Option (Option Error)
  unmarshalOption : β → Option (Option Opt)
  ComposeBytes : Header → List β → Option β
  DecomposeBytes : Header → β → Header × List β

/-- The round-trip assumptions of the typed round trip: JSON unmarshal inverts JSON
marshal on ints, strings and options, and `DecomposeBytes` inverts `ComposeBytes`,
filling the header it is handed. -/
structure Wire.Inverse {β : Type} (W : Wire β) : Prop where
  int : ∀ n, isInt n → W.unmarshalInt (W.marshalValue (GoValue.int n)) = some n
  str : ∀ s, W.unmarshalString (W.marshalValue (GoValue.str s)) = some s
  option : ∀ o, W.unmarshalOption (W.marshalOption o) = some o
  bytes : ∀ h xs, ∃ b, W.ComposeBytes h xs = some b ∧ ∀ h0, W.DecomposeBytes h0 b = (h, xs)

/-- The round-trip assumptions for whole reports: those of `Wire.Inverse`, and JSON
unmarshal inverts JSON marshal on statuses and errors as well. -/
structure Wire.InverseAll {β : Type} (W : Wire β) extends W.Inverse : Prop where
  int16 : ∀ s, isInt16 s → W.unmarshalInt16 (W.marshalInt16 s) = some s
  error : ∀ e, W.unmarshalError (W.marshalError e) = some e

/-- A symbolic byte string: what was marshalled, or a frame of header and chunks. -/
inductive Blob
  | val (v : GoValue)
  | num (s : Int)
  | err (e : Option Error)
  | opt (o : Option Opt)
  | frame (h : Header) (chunks : List Blob)

/-- A concrete wire format on symbolic byte strings; it satisfies `Wire.InverseAll`. -/
def symbolicWire : Wire Blob where
  marshalValue := Blob.val
  marshalInt16 := Blob.num
  marshalError := Blob.err
  marshalOption := Blob.opt
  unmarshalInt := fun b => match b with
    | Blob.val (GoValue.int n) => some n
    | Blob.num s => some s
    | _ => none
  unmarshalString := fun b => match b with
    | Blob.val (GoValue.str s) => some s
    | _ => none
  unmarshalInt16 := fun b => match b with
    | Blob.val (GoValue.int n) => some n
    | Blob.num s => some s
    | _ => none
  unmarshalError := fun b => match b with
    | Blob.err e => some e
    | _ => none
  unmarshalOption := fun b => match b with
    | Blob.opt o => some o
    | _ => none
  ComposeBytes := fun h xs => some (Blob.frame h xs)
  DecomposeBytes := fun h0 b => match b with
    | Blob.frame h xs => (h, xs)
    | _ => (h0, [])

end transport

namespace dingo

open transport

variable {β : Type}

/-! ## The demo marshaller and invoker of `dingo_local_test.go`

The `fn interface{}` argument of the marshaller methods is not used by them and is
left out. -/

/-- Go `func (me *testMyMarshaller) EncodeTask(fn, task) ([]byte, error)`. -/
def testMyMarshaller.EncodeTask (W : Wire β) (task : transport.Task GoValue) : Option β := do
  let a0 ← index task.Args 0
  let bN := W.marshalValue a0
  let a1 ← index task.Args 1
  let bName := W.marshalValue a1
  let bOpt := W.marshalOption task.P.O
  W.ComposeBytes task.H [bN, bName, bOpt]

/-- Go `func (me *testMyMarshaller) DecodeTask(h, fn, b) (task *transport.Task, err error)`. -/
def testMyMarshaller.DecodeTask (W : Wire β) (h : Header) (b : β) : Option (transport.Task GoValue) := do
  let (h, bs) := W.DecomposeBytes h b
  let n := (W.unmarshalInt (← bs[0]?)).getD 0
  let name := (W.unmarshalString (← bs[1]?)).getD ""
  let o := (W.unmarshalOption (← bs[2]?)).getD none
  pure { H := h, P := { O := o, A := some [GoValue.int n, GoValue.str name] } }

/-- Go `func (me *testMyMarshaller) EncodeReport(fn, report) (b []byte, err error)`. -/
def testMyMarshaller.EncodeReport (W : Wire β) (report : Report GoValue) : Option β := do
  let bs : List β := []
  let bs ← if report.OK then do
      let r0 ← index report.Return 0
      let bMsg := W.marshalValue r0
      let r1 ← index report.Return 1
      let bCount := W.marshalValue r1
      pure (bs ++ [bMsg, bCount])
    else pure bs
  let bStatus := W.marshalInt16 report.Status
  let bError := W.marshalError report.P.E
  let bOpt := W.marshalOption report.P.O
  W.ComposeBytes report.H (bs ++ [bStatus, bError, bOpt])

/-- Go `func (me *testMyMarshaller) DecodeReport(h, fn, b) (report *transport.Report, err error)`. -/
def testMyMarshaller.DecodeReport (W : Wire β) (h : Header) (b : β) :
    Option (Report GoValue) := do
  let (h, bs) := W.DecomposeBytes h b
  let (msg, count, bs) ← if bs.length > 3 then do
      let msg := (W.unmarshalString (← bs[0]?)).getD ""
      let count := (W.unmarshalInt (← bs[1]?)).getD 0
      pure (msg, count, bs.drop 2)
    else pure ("", (0 : Int), bs)
  let s := (W.unmarshalInt16 (← bs[0]?)).getD 0
  let e := (W.unmarshalError (← bs[1]?)).getD none
  let o := (W.unmarshalOption (← bs[2]?)).getD none
  pure { H := h, P := { S := s, E := e, O := o, R := some [GoValue.str msg, GoValue.int count] } }

/-- Go `func (me *testMyInvoker) Call(f interface{}, param []interface{}) ([]interface{}, error)`
for `f` of type `func(int, string) (string, int)`; a failed type assertion panics. -/
def testMyInvoker.Call (f : Int → String → String × Int) (param : Slice GoValue) :
    Option (Slice GoValue) := do
  let p0 ← index param 0
  let p1 ← index param 1
  match p0, p1 with
  | GoValue.int n, GoValue.str name =>
    let (msg, count) := f n name
    pure (some [GoValue.str msg, GoValue.int count])
  | _, _ => none

/-- Go `func (me *testMyInvoker) Return(f interface{}, returns []interface{}) ([]interface{}, error)`. -/
def testMyInvoker.Return (returns : Slice GoValue) : Slice GoValue := returns

/-- The work function of `TestMyMarshaller`:
`msg = name + "_'s message"; count = n + 1` on Go `int`s. -/
def fn (n : Int) (name : String) : String × Int :=
  (name ++ "_'s message", wrapInt (n + 1))

/-- The path of one call of scenario S2 through the demo marshaller and invoker:
the task with args `[n, name]` is encoded and decoded, the function is called on the
decoded args, the returned values are put in a `Success` report for the task, and the
report is encoded and decoded.  `hT` and `hR` are the headers handed to the decoders. -/
def typedRoundTrip (W : Wire β) (f : Int → String → String × Int) (h hT hR : Header)
    (o : Option Opt) (n : Int) (name : String) : Option (Report GoValue) := do
  let task : transport.Task GoValue := { H := h, P := { O := o, A := some [GoValue.int n, GoValue.str name] } }
  let b ← testMyMarshaller.EncodeTask W task
  let task ← testMyMarshaller.DecodeTask W hT b
  let ret ← testMyInvoker.Call f task.Args
  let report : Report GoValue :=
    { H := task.H, P := { S := Status.Success, E := none, O := task.P.O,
                          R := testMyInvoker.Return ret } }
  let rb ← testMyMarshaller.EncodeReport W report
  testMyMarshaller.DecodeReport W hR rb

/-! ## Bridge selection (`bridge.go`) -/

/-- How a statement ends: it returns a value, or control passes to the next statement. -/
inductive Flow (B : Type)
  | ret (b : B)
  | next

/-- The `switch which { case "local": return newLocalBridge(args...);
default: return newDefaultBridge(m) }` statement of `NewBridge`. -/
def NewBridge.switchStmt {B M A : Type} (newLocalBridge : List A → B) (newDefaultBridge : M → B)
    (which : String) (m : M) (args : List A) : Flow B :=
  if which = "local" then
    Flow.ret (newLocalBridge args)
  else
    Flow.ret (newDefaultBridge m)

/-- Go `func NewBridge(which string, m *transport.Marshallers, args ...interface{}) Bridge`.
The constructors `newLocalBridge` and `newDefaultBridge` are not among the sources and
are parameters; `none` is the nil `Bridge` of the trailing `return nil`. -/
def NewBridge {B M A : Type} (newLocalBridge : List A → B) (newDefaultBridge : M → B)
    (which : String) (m : M) (args : List A) : Option B :=
  match NewBridge.switchStmt newLocalBridge newDefaultBridge which m args with
  | Flow.ret b => some b
  | Flow.next => none

/-! ## The call path: application facade and mapper pool -/

/-- Modelled from the spec: `transport.NewOption()`, an option with no switch set; the
constructor is not among the sources. -/
def NewOption : Opt := ⟨false, false⟩

/-- Modelled from the spec: `(*Option).SetIgnoreReport`, not among the sources. -/
def SetIgnoreReport (o : Opt) (ignore : Bool) : Opt := { o with IR := ignore }

/-- Modelled from the spec: `(*Option).SetOnlyResult`, not among the sources. -/
def SetOnlyResult (o : Opt) (only : Bool) : Opt := { o with OR := only }

/-- Modelled from the spec: what invoking a registered function on a task's arguments
ends in (§4.B, §4.E steps 4 and 5): the returned values, an invoker error, or a caught
panic.  The invoker and worker code is not among the sources. -/
inductive Outcome
  | returned (rs : Slice GoValue)
  | failed (e : Error)
  | panicked (e : Error)

/-- Modelled from the spec: an entry of the function registry (§5), the function as the
worker runs it and its marshaller ID.  The registry is not among the sources. -/
structure Registered where
  mid : Int
  run : Slice GoValue → Outcome

/-- Modelled from the spec: a Report for task `t`; it "always carries the ID/Name of the
originating Task".  The report constructors are not among the sources. -/
def reportOf (t : transport.Task GoValue) (s : Int) (e : Option Error) (r : Slice GoValue) :
    Report GoValue :=
  { H := t.H, P := { S := s, E := e, O := t.P.O, R := r } }

/-- Modelled from the spec: the Reports the mapper pool constructs for one task
(§4.E steps 3 to 5, the routing invariant, and §4.G): none when `IgnoreReport` is set;
otherwise a `Fail` report for an unknown name, or `Progress` (unless `OnlyResult`)
followed by the terminal report.  The mapper pool is not among the sources. -/
def mapperReports (reg : List (String × Registered)) (unknownFunction : Error)
    (t : transport.Task GoValue) : List (Report GoValue) :=
  let o := t.P.O.getD NewOption
  if o.IR then
    []
  else
    match reg.lookup t.H.N with
    | none => [reportOf t Status.Fail (some unknownFunction) none]
    | some w =>
      (if o.OR then [] else [reportOf t Status.Progress none none]) ++
        [match w.run t.Args with
          | Outcome.returned rs => reportOf t Status.Success none rs
          | Outcome.failed e => reportOf t Status.Fail (some e) none
          | Outcome.panicked e => reportOf t Status.Panic (some e) none]

/-- What `Call` hands back and what it caused: the report stream (`none` is the nil
channel, `some rs` a channel delivering `rs` and then closed), the error, and every
Report constructed for the task. -/
structure CallResult where
  reports : Option (List (Report GoValue))
  err : Option Error
  produced : List (Report GoValue)

/-- Modelled from the spec: `Call(name, option, args...)` of the application facade
(§3 Option, §4.G, §6 registered-function surface): the task is composed for the
registered function and sent; with `IgnoreReport` the stream is nil, otherwise it
carries `Sent` (unless `OnlyResult`) and the mapper's reports.  The facade is not among
the sources. -/
def Call (reg : List (String × Registered)) (unknownFunction : Error) (id name : String)
    (option : Opt) (args : List GoValue) : CallResult :=
  match reg.lookup name with
  | none => { reports := none, err := some unknownFunction, produced := [] }
  | some w =>
    let t : transport.Task GoValue :=
      { H := { I := id, N := name, MashID := w.mid },
        P := { O := some option, A := if args.isEmpty then none else some args } }
    let sent := if option.IR || option.OR then [] else [reportOf t Status.Sent none none]
    let produced := sent ++ mapperReports reg unknownFunction t
    { reports := if option.IR then none else some produced, err := none, produced := produced }

end dingo

open transport dingo

/-! ## Status table and termination predicates -/

section ReportTheorems

variable {α : Type}

/-- C1: `Done()` is true exactly when the status is one of `Success`, `Fail`, `Panic`,
`Shutdown`, that is one of 3, 4, 5, 6; it is false for `None`, `Sent`, `Progress`, for
`Count` and for every negative or larger value. -/
theorem done_iff_terminal (r : Report α) :
    (r.Done = true ↔
      r.Status = Status.Success ∨ r.Status = Status.Fail ∨
        r.Status = Status.Panic ∨ r.Status = Status.Shutdown) ∧
    (r.Done = true ↔ r.Status = 3 ∨ r.Status = 4 ∨ r.Status = 5 ∨ r.Status = 6) ∧
    (r.Status = Status.None ∨ r.Status = Status.Sent ∨ r.Status = Status.Progress ∨
        r.Status = Status.Count ∨ r.Status < 0 ∨ Status.Count ≤ r.Status →
      r.Done = false) := by
  obtain ⟨H, ⟨s, e, o, ret⟩⟩ := r
  have key : (Report.mk H ⟨s, e, o, ret⟩).Done = true ↔ s = 3 ∨ s = 4 ∨ s = 5 ∨ s = 6 := by
    simp [Report.Done, Status, or_assoc]
  refine ⟨?_, ?_, ?_⟩
  · simpa [Report.Status, Status] using key
  · simpa [Report.Status] using key
  · intro h
    simp only [Report.Status, Status] at h
    have hs : ¬ (s = 3 ∨ s = 4 ∨ s = 5 ∨ s = 6) := by omega
    exact Bool.eq_false_iff.mpr (fun hd => hs (key.mp hd))

/-- C2: the code at a report whose status is `Panic` or `Shutdown`: `Done()` is true
while `OK()` and `Fail()` are both false. -/
theorem done_without_ok_or_fail (H : Header) (e : Option Error) (o : Option Opt)
    (ret : Slice α) :
    ((Report.mk H ⟨Status.Panic, e, o, ret⟩).Done = true ∧
      (Report.mk H ⟨Status.Panic, e, o, ret⟩).OK = false ∧
      (Report.mk H ⟨Status.Panic, e, o, ret⟩).Fail = false) ∧
    ((Report.mk H ⟨Status.Shutdown, e, o, ret⟩).Done = true ∧
      (Report.mk H ⟨Status.Shutdown, e, o, ret⟩).OK = false ∧
      (Report.mk H ⟨Status.Shutdown, e, o, ret⟩).Fail = false) := by
  simp [Report.Done, Report.OK, Report.Fail, Status]

/-- C3: the `Status` table holds `None=0, Sent=1, Progress=2, Success=3, Fail=4, Panic=5,
Shutdown=6, Count=7`; the seven statuses are pairwise distinct, are exactly the values
`0..Count-1`, and `Count` is strictly greater than each of them. -/
theorem status_table :
    (Status.None = 0 ∧ Status.Sent = 1 ∧ Status.Progress = 2 ∧ Status.Success = 3 ∧
      Status.Fail = 4 ∧ Status.Panic = 5 ∧ Status.Shutdown = 6 ∧ Status.Count = 7) ∧
    List.Pairwise (fun a b => a ≠ b)
      [Status.None, Status.Sent, Status.Progress, Status.Success, Status.Fail,
        Status.Panic, Status.Shutdown] ∧
    (∀ s : Int,
      s ∈ [Status.None, Status.Sent, Status.Progress, Status.Success, Status.Fail,
          Status.Panic, Status.Shutdown] ↔ 0 ≤ s ∧ s < Status.Count) ∧
    (∀ s ∈ [Status.None, Status.Sent, Status.Progress, Status.Success, Status.Fail,
          Status.Panic, Status.Shutdown], s < Status.Count) := by
  refine ⟨by simp [Status], by simp [Status], ?_, ?_⟩
  · intro s
    simp only [Status, List.mem_cons, List.mem_singleton, List.not_mem_nil, or_false]
    omega
  · intro s hs
    simp only [Status, List.mem_cons, List.mem_singleton, List.not_mem_nil, or_false] at hs
    simp only [Status]
    omega

/-- C4: `OK()` is true exactly when the status is `Success`; at most one of `OK()`,
`Fail()`, `Panic()`, `Shutdown()` is true for any report, and exactly one of them is true
whenever `Done()` is true. -/
theorem ok_iff_success_and_exclusive (r : Report α) :
    (r.OK = true ↔ r.Status = Status.Success) ∧
    [r.OK, r.Fail, r.Panic, r.Shutdown].count true ≤ 1 ∧
    (r.Done = true → [r.OK, r.Fail, r.Panic, r.Shutdown].count true = 1) := by
  obtain ⟨H, ⟨s, e, o, ret⟩⟩ := r
  refine ⟨by simp [Report.OK, Report.Status], ?_, ?_⟩
  · by_cases h3 : s = 3
    · subst h3; simp [Report.OK, Report.Fail, Report.Panic, Report.Shutdown, Status]
    by_cases h4 : s = 4
    · subst h4; simp [Report.OK, Report.Fail, Report.Panic, Report.Shutdown, Status]
    by_cases h5 : s = 5
    · subst h5; simp [Report.OK, Report.Fail, Report.Panic, Report.Shutdown, Status]
    by_cases h6 : s = 6
    · subst h6; simp [Report.OK, Report.Fail, Report.Panic, Report.Shutdown, Status]
    simp [Report.OK, Report.Fail, Report.Panic, Report.Shutdown, Status, h3, h4, h5, h6]
  · intro hd
    have hd' : s = 3 ∨ s = 4 ∨ s = 5 ∨ s = 6 := by
      simpa [Report.Done, Status, or_assoc] using hd
    rcases hd' with h | h | h | h <;> subst h <;>
      simp [Report.OK, Report.Fail, Report.Panic, Report.Shutdown, Status]

/-! ## `Equal` and `AlmostEqual` -/

/-- Unfolding of `AlmostEqual`: the five compared fields agree, and the `Return` lists are
both of length 0 or deeply equal. -/
theorem almostEqual_iff [DecidableEq α] (r o : Report α) :
    r.AlmostEqual o = true ↔
      r.H.I = o.H.I ∧ r.H.N = o.H.N ∧ r.P.S = o.P.S ∧ r.P.O = o.P.O ∧ r.P.E = o.P.E ∧
        ((len r.P.R = 0 ∧ len o.P.R = 0) ∨ r.P.R = o.P.R) := by
  unfold Report.AlmostEqual DeepEqual
  by_cases hI : r.H.I = o.H.I <;> by_cases hN : r.H.N = o.H.N <;>
    by_cases hS : r.P.S = o.P.S <;> by_cases hO : r.P.O = o.P.O <;>
    by_cases hE : r.P.E = o.P.E <;> by_cases hL : len r.P.R = 0 <;>
    by_cases hL' : len o.P.R = 0 <;> simp [hI, hN, hS, hO, hE, hL, hL']

/-- C5: for reports that agree on ID, Name, Status, Option and Error: when both `Return`
lists have length 0, `AlmostEqual` is true whether each is nil or empty; when at least
one is non-empty, `AlmostEqual` is true exactly when the `Return` lists are deeply
equal. -/
theorem almostEqual_return [DecidableEq α] (r o : Report α)
    (hI : r.ID = o.ID) (hN : r.Name = o.Name) (hS : r.Status = o.Status)
    (hO : DeepEqual r.P.O o.P.O = true) (hE : DeepEqual r.P.E o.P.E = true) :
    (len r.Return = 0 ∧ len o.Return = 0 → r.AlmostEqual o = true) ∧
    (len r.Return ≠ 0 ∨ len o.Return ≠ 0 →
      (r.AlmostEqual o = true ↔ DeepEqual r.Return o.Return = true)) := by
  simp only [Report.ID, Report.Name, Report.Status, Report.Return, DeepEqual,
    decide_eq_true_eq] at *
  constructor
  · intro hlen
    exact (almostEqual_iff r o).mpr ⟨hI, hN, hS, hO, hE, Or.inl hlen⟩
  · intro hne
    rw [almostEqual_iff]
    constructor
    · rintro ⟨-, -, -, -, -, hlen | hR⟩
      · omega
      · exact hR
    · intro hR
      exact ⟨hI, hN, hS, hO, hE, Or.inr hR⟩

/-- C5 at a concrete pair: a nil `Return` against an empty non-nil `Return`, which are
not deeply equal, and a pair of non-empty `Return` lists. -/
theorem almostEqual_return_witness :
    DeepEqual (none : Slice GoValue) (some []) = false ∧
    (Report.mk ⟨"id", "f", 0⟩ ⟨3, none, some ⟨false, true⟩, (none : Slice GoValue)⟩).AlmostEqual
      (Report.mk ⟨"id", "f", 1⟩ ⟨3, none, some ⟨false, true⟩, some []⟩) = true ∧
    ((Report.mk ⟨"id", "f", 0⟩ ⟨3, none, none, some [GoValue.int 1]⟩).AlmostEqual
      (Report.mk ⟨"id", "f", 0⟩ ⟨3, none, none, some [GoValue.int 2]⟩) = true ↔
      DeepEqual (some [GoValue.int 1]) (some [GoValue.int 2]) = true) :=
  ⟨by decide,
    (almostEqual_return
      (Report.mk ⟨"id", "f", 0⟩ ⟨3, none, some ⟨false, true⟩, (none : Slice GoValue)⟩)
      (Report.mk ⟨"id", "f", 1⟩ ⟨3, none, some ⟨false, true⟩, some []⟩)
      rfl rfl rfl (by decide) (by decide)).1 ⟨rfl, rfl⟩,
    (almostEqual_return
      (Report.mk ⟨"id", "f", 0⟩ ⟨3, none, none, some [GoValue.int 1]⟩)
      (Report.mk ⟨"id", "f", 0⟩ ⟨3, none, none, some [GoValue.int 2]⟩)
      rfl rfl rfl (by decide) (by decide)).2 (Or.inl (by decide))⟩

/-- C9: `AlmostEqual` is reflexive, symmetric and transitive on reports (with
`reflect.DeepEqual` as structural equality), and `Equal` implies `AlmostEqual`. -/
theorem almostEqual_equivalence [DecidableEq α] :
    Equivalence (fun r o : Report α => r.AlmostEqual o = true) ∧
    (∀ r o : Report α, r.Equal o = true → r.AlmostEqual o = true) := by
  refine ⟨⟨?_, ?_, ?_⟩, ?_⟩
  · intro r
    exact (almostEqual_iff r r).mpr ⟨rfl, rfl, rfl, rfl, rfl, Or.inr rfl⟩
  · intro r o h
    obtain ⟨hI, hN, hS, hO, hE, hR⟩ := (almostEqual_iff r o).mp h
    refine (almostEqual_iff o r).mpr ⟨hI.symm, hN.symm, hS.symm, hO.symm, hE.symm, ?_⟩
    rcases hR with ⟨h1, h2⟩ | hR
    · exact Or.inl ⟨h2, h1⟩
    · exact Or.inr hR.symm
  · intro r o t hro hot
    obtain ⟨hI, hN, hS, hO, hE, hR⟩ := (almostEqual_iff r o).mp hro
    obtain ⟨hI', hN', hS', hO', hE', hR'⟩ := (almostEqual_iff o t).mp hot
    refine (almostEqual_iff r t).mpr
      ⟨hI.trans hI', hN.trans hN', hS.trans hS', hO.trans hO', hE.trans hE', ?_⟩
    rcases hR with ⟨h1, h2⟩ | hR
    · rcases hR' with ⟨-, h4⟩ | hR'
      · exact Or.inl ⟨h1, h4⟩
      · exact Or.inl ⟨h1, hR' ▸ h2⟩
    · rcases hR' with ⟨h3, h4⟩ | hR'
      · exact Or.inl ⟨hR ▸ h3, h4⟩
      · exact Or.inr (hR.trans hR')
  · intro r o h
    have hro : r = o := by simpa [Report.Equal, DeepEqual] using h
    subst hro
    exact (almostEqual_iff r r).mpr ⟨rfl, rfl, rfl, rfl, rfl, Or.inr rfl⟩

end ReportTheorems

/-! ## The demo marshaller -/

section Marshaller

variable {β : Type}

/-- The symbolic wire format satisfies the round-trip assumptions for whole reports. -/
theorem symbolicWire_inverseAll : symbolicWire.InverseAll where
  int := fun _ _ => rfl
  str := fun _ => rfl
  option := fun _ => rfl
  bytes := fun h xs => ⟨Blob.frame h xs, rfl, fun _ => rfl⟩
  int16 := fun _ _ => rfl
  error := fun _ => rfl

/-- The symbolic wire format satisfies the round-trip assumptions of the typed round
trip. -/
theorem symbolicWire_inverse : symbolicWire.Inverse := symbolicWire_inverseAll.toInverse

/-- The result of a wrapped `int` operation is an `int`. -/
theorem isInt_wrapInt (x : Int) : isInt (wrapInt x) := by
  unfold isInt wrapInt
  omega

/-- Without overflow, wrapping changes nothing. -/
theorem wrapInt_of_isInt (x : Int) (hx : isInt x) : wrapInt x = x := by
  unfold isInt at hx
  unfold wrapInt
  omega

/-- Decoding an encoded task with args `[n, name]` gives the task back. -/
theorem decodeTask_encodeTask (W : Wire β) (hW : W.Inverse) (h : Header) (o : Option Opt)
    (n : Int) (name : String) (hn : isInt n) :
    ∃ b, testMyMarshaller.EncodeTask W
        { H := h, P := { O := o, A := some [GoValue.int n, GoValue.str name] } } = some b ∧
      ∀ h0, testMyMarshaller.DecodeTask W h0 b
        = some { H := h, P := { O := o, A := some [GoValue.int n, GoValue.str name] } } := by
  obtain ⟨b, hb, hdec⟩ := hW.bytes h
    [W.marshalValue (GoValue.int n), W.marshalValue (GoValue.str name), W.marshalOption o]
  refine ⟨b, ?_, ?_⟩
  · simp [testMyMarshaller.EncodeTask, index, Task.Args, hb]
  · intro h0
    simp [testMyMarshaller.DecodeTask, hdec h0, hW.int n hn, hW.str name, hW.option o]

/-- Decoding an encoded `Success` report with `Return = [msg, count]` gives a report
with the same header, option and `Return`. -/
theorem decodeReport_encodeReport_return (W : Wire β) (hW : W.Inverse) (h : Header)
    (e : Option Error) (o : Option Opt) (msg : String) (count : Int) (hc : isInt count) :
    ∃ b, testMyMarshaller.EncodeReport W
        { H := h, P := { S := Status.Success, E := e, O := o,
                         R := some [GoValue.str msg, GoValue.int count] } } = some b ∧
      ∀ h0, ∃ r, testMyMarshaller.DecodeReport W h0 b = some r ∧ r.H = h ∧ r.P.O = o ∧
        r.P.R = some [GoValue.str msg, GoValue.int count] := by
  obtain ⟨b, hb, hdec⟩ := hW.bytes h
    [W.marshalValue (GoValue.str msg), W.marshalValue (GoValue.int count),
      W.marshalInt16 Status.Success, W.marshalError e, W.marshalOption o]
  refine ⟨b, ?_, ?_⟩
  · simp [testMyMarshaller.EncodeReport, index, Report.OK, Report.Return, Report.Status, hb]
  · intro h0
    simp [testMyMarshaller.DecodeReport, hdec h0, hW.int count hc, hW.str msg, hW.option o]

/-- Decoding an encoded `Success` report with `Return = [msg, count]` gives it back. -/
theorem decodeReport_encodeReport_ok (W : Wire β) (hW : W.InverseAll) (h : Header)
    (e : Option Error) (o : Option Opt) (msg : String) (count : Int) (hc : isInt count) :
    ∃ b, testMyMarshaller.EncodeReport W
        { H := h, P := { S := Status.Success, E := e, O := o,
                         R := some [GoValue.str msg, GoValue.int count] } } = some b ∧
      ∀ h0, testMyMarshaller.DecodeReport W h0 b
        = some { H := h, P := { S := Status.Success, E := e, O := o,
                                R := some [GoValue.str msg, GoValue.int count] } } := by
  obtain ⟨b, hb, hdec⟩ := hW.bytes h
    [W.marshalValue (GoValue.str msg), W.marshalValue (GoValue.int count),
      W.marshalInt16 Status.Success, W.marshalError e, W.marshalOption o]
  have h16 : isInt16 Status.Success := by simp [isInt16, Status]
  refine ⟨b, ?_, ?_⟩
  · simp [testMyMarshaller.EncodeReport, index, Report.OK, Report.Return, Report.Status, hb]
  · intro h0
    simp [testMyMarshaller.DecodeReport, hdec h0, hW.int count hc, hW.str msg,
      hW.int16 _ h16, hW.error e, hW.option o]

/-- Decoding an encoded report whose status is not `Success` gives a report with the same
header, status, error and option, and with `Return = ["", 0]`, whatever `Return` was. -/
theorem decodeReport_encodeReport_not_ok (W : Wire β) (hW : W.InverseAll)
    (r : Report GoValue) (hs : isInt16 r.Status) (hok : r.OK = false) :
    ∃ b, testMyMarshaller.EncodeReport W r = some b ∧
      ∀ h0, testMyMarshaller.DecodeReport W h0 b
        = some { H := r.H, P := { S := r.P.S, E := r.P.E, O := r.P.O,
                                  R := some [GoValue.str "", GoValue.int 0] } } := by
  obtain ⟨b, hb, hdec⟩ := hW.bytes r.H
    [W.marshalInt16 r.P.S, W.marshalError r.P.E, W.marshalOption r.P.O]
  refine ⟨b, ?_, ?_⟩
  · simp [testMyMarshaller.EncodeReport, hok, Report.Status, hb]
  · intro h0
    have hs' : isInt16 r.P.S := hs
    simp [testMyMarshaller.DecodeReport, hdec h0, hW.int16 _ hs', hW.error r.P.E,
      hW.option r.P.O]

/-- C6: the typed round trip of scenario S2.  For every Go `int` `n` and string `name`,
encoding the task with args `[n, name]`, decoding it, calling `fn` through the demo
invoker, putting the result in a `Success` report and passing the report through
`EncodeReport` and `DecodeReport` yields a report whose `Return` is
`[name + "_'s message", n + 1]`, a string and an int (`n + 1` being Go's `int` addition),
under the round-trip assumptions on JSON and `ComposeBytes` / `DecomposeBytes`. -/
theorem typedRoundTrip_return (W : Wire β) (hW : W.Inverse) (h hT hR : Header)
    (o : Option Opt) (n : Int) (name : String) (hn : isInt n) :
    ∃ r, typedRoundTrip W fn h hT hR o n name = some r ∧
      r.Return = some [GoValue.str (fn n name).1, GoValue.int (fn n name).2] ∧
      (fn n name).1 = name ++ "_'s message" ∧
      (n + 1 < 2 ^ 63 → (fn n name).2 = n + 1) ∧
      r.ID = h.I ∧ r.Name = h.N ∧ r.P.O = o := by
  obtain ⟨b, hb, hdec⟩ := decodeTask_encodeTask W hW h o n name hn
  obtain ⟨rb, hrb, hrdec⟩ := decodeReport_encodeReport_return W hW h none o
    (name ++ "_'s message") (wrapInt (n + 1)) (isInt_wrapInt _)
  obtain ⟨r, hr, hH, hO, hR⟩ := hrdec hR
  refine ⟨r, ?_, hR, rfl, ?_, ?_, ?_, hO⟩
  · simp only [typedRoundTrip, hb, hdec hT, Option.bind_eq_bind, Option.some_bind]
    simp only [testMyInvoker.Call, Task.Args, index, fn, testMyInvoker.Return,
      List.getElem?_cons_zero, List.getElem?_cons_succ, Option.bind_eq_bind, Option.some_bind,
      Option.pure_def, hrb, hr]
  · intro hlt
    exact wrapInt_of_isInt _ ⟨by unfold isInt at hn; omega, hlt⟩
  · simp [Report.ID, hH]
  · simp [Report.Name, hH]

/-- C6 at the test's input: `n = 12345`, `name = "mission"` on the symbolic wire format
gives `["mission_'s message", 12346]`. -/
theorem typedRoundTrip_return_witness :
    isInt 12345 ∧
    ∃ r, typedRoundTrip symbolicWire fn ⟨"id", "TestMyMarshaller", 101⟩ ⟨"", "", 0⟩ ⟨"", "", 0⟩
        (some (SetOnlyResult NewOption true)) 12345 "mission" = some r ∧
      r.Return = some [GoValue.str "mission_'s message", GoValue.int 12346] :=
  ⟨by unfold isInt; norm_num,
    match typedRoundTrip_return symbolicWire symbolicWire_inverse
        ⟨"id", "TestMyMarshaller", 101⟩ ⟨"", "", 0⟩ ⟨"", "", 0⟩
        (some (SetOnlyResult NewOption true)) 12345 "mission" (by unfold isInt; norm_num) with
    | ⟨r, hr, hret, _⟩ => ⟨r, hr, hret.trans (by decide)⟩⟩

/-- C7: what the code does on a report that is not `Success` and has an empty `Return`
(nil or empty): under the round-trip assumptions, `EncodeReport` succeeds and
`DecodeReport` yields a report whose `Return` is `["", 0]`, which is not `AlmostEqual`
to the original. -/
theorem decodeReport_fabricates_return (W : Wire β) (hW : W.InverseAll) (r : Report GoValue)
    (hs : isInt16 r.Status) (hok : r.OK = false) (hlen : len r.Return = 0) (h0 : Header) :
    ∃ b r', testMyMarshaller.EncodeReport W r = some b ∧
      testMyMarshaller.DecodeReport W h0 b = some r' ∧
      r'.Return = some [GoValue.str "", GoValue.int 0] ∧
      r'.AlmostEqual r = false := by
  obtain ⟨b, hb, hdec⟩ := decodeReport_encodeReport_not_ok W hW r hs hok
  refine ⟨b, _, hb, hdec h0, rfl, ?_⟩
  rw [Bool.eq_false_iff]
  intro hae
  obtain ⟨-, -, -, -, -, hR⟩ := (almostEqual_iff _ _).mp hae
  rcases hR with ⟨h1, -⟩ | hR
  · simp [len] at h1
  · have hlen' : len r.P.R = 0 := hlen
    rw [← hR] at hlen'
    simp [len] at hlen'

/-- C7 at a concrete `Fail` report with an empty `Return`, on the symbolic wire format. -/
theorem decodeReport_fabricates_return_witness :
    ∃ b r', testMyMarshaller.EncodeReport symbolicWire
        (Report.mk ⟨"id", "f", 101⟩ ⟨Status.Fail, some ⟨1, "boom"⟩, none, some []⟩) = some b ∧
      testMyMarshaller.DecodeReport symbolicWire ⟨"", "", 0⟩ b = some r' ∧
      r'.Return = some [GoValue.str "", GoValue.int 0] ∧
      r'.AlmostEqual
        (Report.mk ⟨"id", "f", 101⟩ ⟨Status.Fail, some ⟨1, "boom"⟩, none, some []⟩) = false :=
  decodeReport_fabricates_return symbolicWire symbolicWire_inverseAll
    (Report.mk ⟨"id", "f", 101⟩ ⟨Status.Fail, some ⟨1, "boom"⟩, none, some []⟩)
    (by simp [isInt16, Report.Status, Status]) (by decide) (by decide) ⟨"", "", 0⟩

end Marshaller

/-! ## Bridge selection -/

/-- C10: `NewBridge` selects by exact string match: for `"local"` the result is
`newLocalBridge(args...)` whatever the marshallers; for every other string (among them
`""`, `"Local"` and `"default"`) it is `newDefaultBridge(m)` whatever the args; the
switch never falls through, so the trailing `return nil` is never the result. -/
theorem newBridge_selects {B M A : Type} (newLocalBridge : List A → B)
    (newDefaultBridge : M → B) :
    (∀ m args, NewBridge newLocalBridge newDefaultBridge "local" m args
        = some (newLocalBridge args)) ∧
    (∀ m m' args, NewBridge newLocalBridge newDefaultBridge "local" m args
        = NewBridge newLocalBridge newDefaultBridge "local" m' args) ∧
    (∀ which m args, which ≠ "local" →
      NewBridge newLocalBridge newDefaultBridge which m args = some (newDefaultBridge m)) ∧
    (∀ which m args args', which ≠ "local" →
      NewBridge newLocalBridge newDefaultBridge which m args
        = NewBridge newLocalBridge newDefaultBridge which m args') ∧
    (∀ m args,
      NewBridge newLocalBridge newDefaultBridge "" m args = some (newDefaultBridge m) ∧
      NewBridge newLocalBridge newDefaultBridge "Local" m args = some (newDefaultBridge m) ∧
      NewBridge newLocalBridge newDefaultBridge "default" m args
        = some (newDefaultBridge m)) ∧
    (∀ which m args,
      NewBridge.switchStmt newLocalBridge newDefaultBridge which m args ≠ Flow.next ∧
      NewBridge newLocalBridge newDefaultBridge which m args ≠ none) := by
  have hloc : ∀ m args, NewBridge newLocalBridge newDefaultBridge "local" m args
      = some (newLocalBridge args) := by
    intro m args
    simp [NewBridge, NewBridge.switchStmt]
  have hOther : ∀ which m args, which ≠ "local" →
      NewBridge newLocalBridge newDefaultBridge which m args = some (newDefaultBridge m) := by
    intro which m args hw
    simp [NewBridge, NewBridge.switchStmt, hw]
  refine ⟨hloc, ?_, hOther, ?_, ?_, ?_⟩
  · intro m m' args
    rw [hloc m args, hloc m' args]
  · intro which m args args' hw
    rw [hOther which m args hw, hOther which m args' hw]
  · intro m args
    exact ⟨hOther "" m args (by decide), hOther "Local" m args (by decide),
      hOther "default" m args (by decide)⟩
  · intro which m args
    by_cases hw : which = "local"
    · subst hw
      exact ⟨by simp [NewBridge.switchStmt], by simp [hloc]⟩
    · exact ⟨by simp [NewBridge.switchStmt, hw], by simp [hOther which m args hw]⟩

/-! ## IgnoreReport -/

/-- C8: for a registered function name and any argument list, `Call` with
`IgnoreReport` set returns a nil report stream and a nil error, and no Report is
constructed for the task, neither by `Call` nor by the mapper pool. -/
theorem call_ignoreReport (reg : List (String × Registered)) (unknownFunction : Error)
    (id name : String) (option : Opt) (args : List GoValue) (w : Registered)
    (hreg : reg.lookup name = some w) (hIR : option.IR = true) :
    (Call reg unknownFunction id name option args).reports = none ∧
    (Call reg unknownFunction id name option args).err = none ∧
    (Call reg unknownFunction id name option args).produced = [] ∧
    (∀ t : transport.Task GoValue, t.P.O = some option →
      mapperReports reg unknownFunction t = []) := by
  have hmap : ∀ t : transport.Task GoValue, t.P.O = some option →
      mapperReports reg unknownFunction t = [] := by
    intro t ht
    simp [mapperReports, ht, hIR]
  refine ⟨?_, ?_, ?_, hmap⟩
  · simp [Call, hreg, hIR]
  · simp [Call, hreg]
  · simp [Call, hreg, hIR, hmap]

/-- C8 at scenario S1: `func() {}` registered under `"TestIgnoreReport"` and called with
`NewOption().SetIgnoreReport(true)` and no argument. -/
theorem call_ignoreReport_witness :
    (Call [("TestIgnoreReport", ⟨0, fun _ => Outcome.returned none⟩)] ⟨0, "unknown"⟩
        "id" "TestIgnoreReport" (SetIgnoreReport NewOption true) []).reports = none ∧
    (Call [("TestIgnoreReport", ⟨0, fun _ => Outcome.returned none⟩)] ⟨0, "unknown"⟩
        "id" "TestIgnoreReport" (SetIgnoreReport NewOption true) []).err = none ∧
    (Call [("TestIgnoreReport", ⟨0, fun _ => Outcome.returned none⟩)] ⟨0, "unknown"⟩
        "id" "TestIgnoreReport" (SetIgnoreReport NewOption true) []).produced = [] :=
  match call_ignoreReport [("TestIgnoreReport", ⟨0, fun _ => Outcome.returned none⟩)]
      ⟨0, "unknown"⟩ "id" "TestIgnoreReport" (SetIgnoreReport NewOption true) []
      ⟨0, fun _ => Outcome.returned none⟩ (by simp [List.lookup]) rfl with
  | ⟨h1, h2, h3, _⟩ => ⟨h1, h2, h3⟩
